import Mathlib

/-!
Verification of the orchestration layer of the recipe-extraction backend:
the URL classifier (`is_video_url`), the tiered fallback driver
(`ExtractionPipeline._extract_from_video`), the SSE progress pipeline
(`extraction_event_generator`), and the batch enrichment engine
(`RecipePopulator.populate_recipes`), shallowly embedded from
`backend/app` of the repository.

External collaborators (yt-dlp, Whisper, the OpenAI parse, TheMealDB HTTP
fetches, `urllib.parse.urlparse`, `hashlib.sha256`) are modelled as oracle
parameters: each embedded operation takes the collaborator's answers as an
argument and reproduces the source's control flow on them.
-/

/-! ## Python string primitives

`lowerStr`, `pyStartsWith`, `pyContains` and `pyStrip` mirror Python's
`str.lower`, `str.startswith`, the `in` substring test and `str.strip`,
at the level of character lists. -/

def lowerStr (s : String) : String := String.mk (s.data.map Char.toLower)

def strHasPre : List Char → List Char → Bool
  | [], _ => true
  | _ :: _, [] => false
  | p :: ps, c :: cs => p == c && strHasPre ps cs

def hasSub (pat : List Char) : List Char → Bool
  | [] => pat.isEmpty
  | c :: cs => strHasPre pat (c :: cs) || hasSub pat cs

def pyContains (s sub : String) : Bool := hasSub sub.data s.data

def pyStartsWith (s p : String) : Bool := strHasPre p.data s.data

def pyStrip (s : String) : String :=
  String.mk (((s.data.dropWhile Char.isWhitespace).reverse.dropWhile Char.isWhitespace).reverse)

theorem strHasPre_iff (pat s : List Char) : strHasPre pat s = true ↔ ∃ r, s = pat ++ r := by
  induction pat generalizing s with
  | nil => simp [strHasPre]
  | cons p ps ih =>
    cases s with
    | nil => simp [strHasPre]
    | cons c cs =>
      simp only [strHasPre, Bool.and_eq_true, beq_iff_eq, ih, List.cons_append, List.cons.injEq]
      constructor
      · rintro ⟨rfl, r, rfl⟩
        exact ⟨r, rfl, rfl⟩
      · rintro ⟨r, rfl, rfl⟩
        exact ⟨rfl, r, rfl⟩

theorem hasSub_iff (pat s : List Char) : hasSub pat s = true ↔ ∃ l r, s = l ++ pat ++ r := by
  induction s with
  | nil =>
    simp only [hasSub, List.isEmpty_iff]
    constructor
    · rintro rfl
      exact ⟨[], [], rfl⟩
    · rintro ⟨l, r, h⟩
      rcases List.append_eq_nil.mp h.symm with ⟨h1, h2⟩
      exact (List.append_eq_nil.mp h1).2
  | cons c cs ih =>
    simp only [hasSub, Bool.or_eq_true, strHasPre_iff, ih]
    constructor
    · rintro (⟨r, hr⟩ | ⟨l, r, hr⟩)
      · exact ⟨[], r, by simp [hr]⟩
      · exact ⟨c :: l, r, by simp [hr]⟩
    · rintro ⟨l, r, hr⟩
      cases l with
      | nil => exact Or.inl ⟨r, by simpa using hr⟩
      | cons x xs =>
        right
        rw [List.cons_append, List.cons_append] at hr
        refine ⟨xs, r, ?_⟩
        rw [List.append_assoc]
        exact (by simpa using hr : c = x ∧ cs = xs ++ (pat ++ r)).2

/-! ## Data model (`app/schemas/extraction.py`)

`Recipe`, `Ingredient`, `Instruction` and `ExtractionMethod` as defined by
the Pydantic schemas. Python `float` fields carry parsed numbers that the
orchestration layer never computes with; they are carried as `Rat`. -/

inductive ExtractionMethod where
  | metadata
  | audio
  | vision
  | website
deriving Repr, DecidableEq

structure Ingredient where
  raw_text : String
  name : String
  normalized_name : String
  quantity : Rat
  unit : String
  preparation : String := ""
  category : String := ""
  optional : Bool := false
  sort_order : Nat := 0
deriving Repr, DecidableEq

structure Instruction where
  step_number : Nat
  text : String
  time_seconds : Option Nat := none
  temperature : Option String := none
  tip : Option String := none
deriving Repr, DecidableEq

structure Recipe where
  title : String
  description : String := ""
  cuisine : String := ""
  difficulty : String := ""
  servings : Option Nat := none
  prep_time_minutes : Option Nat := none
  cook_time_minutes : Option Nat := none
  total_time_minutes : Option Nat := none
  calories : Option Nat := none
  protein_grams : Option Rat := none
  carbs_grams : Option Rat := none
  fat_grams : Option Rat := none
  dietary_tags : List String := []
  keywords : List String := []
  equipment : List String := []
  creator_name : String := ""
  creator_profile_url : Option String := none
  ingredients : List Ingredient
  instructions : List Instruction
  method_used : ExtractionMethod
  source_url : Option String := none
  thumbnail_url : Option String := none
deriving Repr, DecidableEq

/-- `ExtractionResult` from `app/services/extractors/base.py`: dataclass
with defaults `recipe=None`, `should_fallback=False`, `error=None`. -/
structure ExtractionResult where
  success : Bool
  recipe : Option Recipe := none
  should_fallback : Bool := false
  error : Option String := none
deriving Repr, DecidableEq

/-! ## The fallback driver (`ExtractionPipeline._extract_from_video`)

A tier is its `tier_name` together with its `extract` behaviour on any
URL (one call per pipeline run, so a function of the URL suffices).
`driveFrom` embeds the `for extractor in tiers` loop of
`extraction_pipeline.py` lines 188-217: the loop variable `last_error`
is threaded through, and the outcome additionally records the chain
positions of the tiers on which `extractor.extract(url)` was invoked,
in invocation order. -/

structure Tier where
  tier_name : String
  extract : String → ExtractionResult

/-- Observable outcome of one `_extract_from_video` run: the returned
recipe (`None` on failure), the final value of the `last_error` variable
(logged at each failure and in the terminal warning), and the positions
of the invoked tiers in invocation order. -/
structure DriveOutcome where
  recipe : Option Recipe
  last_error : Option String
  invoked : List Nat
deriving Repr, DecidableEq

def driveFrom (url : String) (i : Nat) : List Tier → Option String → DriveOutcome
  | [], le => ⟨none, le, []⟩
  | t :: rest, le =>
    let result := t.extract url
    if result.success && result.recipe.isSome then
      ⟨result.recipe, le, [i]⟩
    else
      if result.should_fallback then
        let o := driveFrom url (i + 1) rest result.error
        ⟨o.recipe, o.last_error, i :: o.invoked⟩
      else
        ⟨none, result.error, [i]⟩

def extract_from_video (tiers : List Tier) (url : String) : DriveOutcome :=
  driveFrom url 0 tiers none

/-- Final value of `last_error` after the given (all-failing) tiers have
run, starting from `le`: the error of the last of them, or `le` if none. -/
def lastErrAfter (url : String) (le : Option String) (ts : List Tier) : Option String :=
  ts.foldl (fun _ t => (t.extract url).error) le

/-- Reach lemma: if the first `k` tiers each fail (no success-with-recipe)
and permit fallback, the run is the first `k` invocations followed by the
run of the remaining chain, with `last_error` threaded through. -/
theorem driveFrom_reach (url : String) :
    ∀ (k : Nat) (tiers : List Tier) (i : Nat) (le : Option String),
    k ≤ tiers.length →
    (∀ j (hj : j < tiers.length), j < k →
      (((tiers.get ⟨j, hj⟩).extract url).success &&
        ((tiers.get ⟨j, hj⟩).extract url).recipe.isSome) = false ∧
      ((tiers.get ⟨j, hj⟩).extract url).should_fallback = true) →
    driveFrom url i tiers le =
      { recipe := (driveFrom url (i + k) (tiers.drop k) (lastErrAfter url le (tiers.take k))).recipe,
        last_error :=
          (driveFrom url (i + k) (tiers.drop k) (lastErrAfter url le (tiers.take k))).last_error,
        invoked :=
          List.range' i k ++
            (driveFrom url (i + k) (tiers.drop k) (lastErrAfter url le (tiers.take k))).invoked } := by
  intro k
  induction k with
  | zero =>
    intro tiers i le _ _
    simp [lastErrAfter, List.range']
  | succ k ih =>
    intro tiers i le hk hfail
    cases tiers with
    | nil => simp at hk
    | cons t rest =>
      have h0 := hfail 0 (by simp) (Nat.succ_pos k)
      have hrest : ∀ j (hj : j < rest.length), j < k →
          (((rest.get ⟨j, hj⟩).extract url).success &&
            ((rest.get ⟨j, hj⟩).extract url).recipe.isSome) = false ∧
          ((rest.get ⟨j, hj⟩).extract url).should_fallback = true := by
        intro j hj hjk
        exact hfail (j + 1) (by simpa using Nat.succ_lt_succ hj) (Nat.succ_lt_succ hjk)
      have hk' : k ≤ rest.length := Nat.le_of_succ_le_succ (by simpa using hk)
      simp only [List.get] at h0
      rw [driveFrom]
      simp only [h0.1, Bool.false_eq_true, if_false, h0.2, if_true]
      rw [ih rest (i + 1) ((t.extract url).error) hk' hrest]
      have hidx : i + 1 + k = i + (k + 1) := by omega
      simp [List.range'_succ, hidx, lastErrAfter, List.take_succ_cons, List.drop_succ_cons]

theorem extract_from_video_reach (url : String) (tiers : List Tier) (k : Nat)
    (hk : k ≤ tiers.length)
    (hfail : ∀ j (hj : j < tiers.length), j < k →
      (((tiers.get ⟨j, hj⟩).extract url).success &&
        ((tiers.get ⟨j, hj⟩).extract url).recipe.isSome) = false ∧
      ((tiers.get ⟨j, hj⟩).extract url).should_fallback = true) :
    extract_from_video tiers url =
      { recipe := (driveFrom url k (tiers.drop k) (lastErrAfter url none (tiers.take k))).recipe,
        last_error :=
          (driveFrom url k (tiers.drop k) (lastErrAfter url none (tiers.take k))).last_error,
        invoked :=
          List.range k ++
            (driveFrom url k (tiers.drop k) (lastErrAfter url none (tiers.take k))).invoked } := by
  have h := driveFrom_reach url k tiers 0 none hk hfail
  rw [extract_from_video, h]
  simp [List.range_eq_range']

/-- C1: for every video-route chain of tiers and every k, if tiers 1..k-1
each return success=false with should_fallback=true and tier k returns
success=true with a recipe present, the Driver returns tier k's recipe and
its invocation trace is exactly the positions 0..k-1 of the 1-indexed
tiers 1..k, in chain order, each occurring once (no retry within a run). -/
theorem driver_first_success_returns_recipe (url : String) (tiers : List Tier) (k : Nat)
    (hk : k < tiers.length)
    (hfail : ∀ j (hj : j < tiers.length), j < k →
      ((tiers.get ⟨j, hj⟩).extract url).success = false ∧
      ((tiers.get ⟨j, hj⟩).extract url).should_fallback = true)
    (hs : ((tiers.get ⟨k, hk⟩).extract url).success = true)
    (hr : ((tiers.get ⟨k, hk⟩).extract url).recipe.isSome = true) :
    (extract_from_video tiers url).recipe = ((tiers.get ⟨k, hk⟩).extract url).recipe ∧
    (extract_from_video tiers url).invoked = List.range (k + 1) := by
  have hfail' : ∀ j (hj : j < tiers.length), j < k →
      (((tiers.get ⟨j, hj⟩).extract url).success &&
        ((tiers.get ⟨j, hj⟩).extract url).recipe.isSome) = false ∧
      ((tiers.get ⟨j, hj⟩).extract url).should_fallback = true := by
    intro j hj hjk
    refine ⟨?_, (hfail j hj hjk).2⟩
    rw [(hfail j hj hjk).1, Bool.false_and]
  rw [extract_from_video_reach url tiers k (le_of_lt hk) hfail']
  have hdrop : tiers.drop k = tiers.get ⟨k, hk⟩ :: tiers.drop (k + 1) := by
    rw [List.drop_eq_getElem_cons hk, List.get_eq_getElem]
  rw [hdrop]
  have hs2 := hs
  have hr2 := hr
  rw [List.get_eq_getElem] at hs2 hr2
  simp [driveFrom, hs2, hr2, List.range_succ]

/-- C2: in a run that reaches tier k (every earlier tier failed and
permitted fallback), if tier k fails (success=false) and either its
should_fallback is false or it is the last tier of the chain, the Driver
terminates in the failure outcome: no recipe, no subsequent tier invoked
(the trace is exactly positions 0..k), and the recorded last error is
tier k's error. -/
theorem driver_failure_terminates (url : String) (tiers : List Tier) (k : Nat)
    (hk : k < tiers.length)
    (hreach : ∀ j (hj : j < tiers.length), j < k →
      (((tiers.get ⟨j, hj⟩).extract url).success &&
        ((tiers.get ⟨j, hj⟩).extract url).recipe.isSome) = false ∧
      ((tiers.get ⟨j, hj⟩).extract url).should_fallback = true)
    (hkfail : ((tiers.get ⟨k, hk⟩).extract url).success = false)
    (hstop : ((tiers.get ⟨k, hk⟩).extract url).should_fallback = false ∨
      k + 1 = tiers.length) :
    extract_from_video tiers url =
      ⟨none, ((tiers.get ⟨k, hk⟩).extract url).error, List.range (k + 1)⟩ := by
  rw [extract_from_video_reach url tiers k (le_of_lt hk) hreach]
  have hdrop : tiers.drop k = tiers.get ⟨k, hk⟩ :: tiers.drop (k + 1) := by
    rw [List.drop_eq_getElem_cons hk, List.get_eq_getElem]
  rw [hdrop]
  have hkfail2 := hkfail
  rw [List.get_eq_getElem] at hkfail2
  rcases hstop with hsf | hlast
  · have hsf2 := hsf
    rw [List.get_eq_getElem] at hsf2
    simp [driveFrom, hkfail2, hsf2, List.range_succ]
  · have hnil : tiers.drop (k + 1) = [] := by
      rw [hlast]
      exact List.drop_length tiers
    rw [hnil]
    simp [driveFrom, hkfail2, List.range_succ]

/-- C10 (implicit): in a run that reaches tier k, a result with
success=true but recipe=None is handled exactly like a failed attempt:
no recipe is returned for it, its error field becomes the recorded
last-known error, and the Driver advances to the next tier when
should_fallback is true or terminates in failure otherwise. -/
theorem driver_success_without_recipe (url : String) (tiers : List Tier) (k : Nat)
    (hk : k < tiers.length)
    (hreach : ∀ j (hj : j < tiers.length), j < k →
      (((tiers.get ⟨j, hj⟩).extract url).success &&
        ((tiers.get ⟨j, hj⟩).extract url).recipe.isSome) = false ∧
      ((tiers.get ⟨j, hj⟩).extract url).should_fallback = true)
    (hs : ((tiers.get ⟨k, hk⟩).extract url).success = true)
    (hr : ((tiers.get ⟨k, hk⟩).extract url).recipe = none) :
    extract_from_video tiers url =
      if ((tiers.get ⟨k, hk⟩).extract url).should_fallback then
        { recipe :=
            (driveFrom url (k + 1) (tiers.drop (k + 1))
              ((tiers.get ⟨k, hk⟩).extract url).error).recipe,
          last_error :=
            (driveFrom url (k + 1) (tiers.drop (k + 1))
              ((tiers.get ⟨k, hk⟩).extract url).error).last_error,
          invoked :=
            List.range (k + 1) ++
              (driveFrom url (k + 1) (tiers.drop (k + 1))
                ((tiers.get ⟨k, hk⟩).extract url).error).invoked }
      else ⟨none, ((tiers.get ⟨k, hk⟩).extract url).error, List.range (k + 1)⟩ := by
  rw [extract_from_video_reach url tiers k (le_of_lt hk) hreach]
  have hdrop : tiers.drop k = tiers.get ⟨k, hk⟩ :: tiers.drop (k + 1) := by
    rw [List.drop_eq_getElem_cons hk, List.get_eq_getElem]
  rw [hdrop]
  have hr2 := hr
  rw [List.get_eq_getElem] at hr2
  cases hsfv : ((tiers.get ⟨k, hk⟩).extract url).should_fallback with
  | false =>
    have hsfv2 := hsfv
    rw [List.get_eq_getElem] at hsfv2
    simp [driveFrom, hr2, hsfv, hsfv2, List.range_succ]
  | true =>
    have hsfv2 := hsfv
    rw [List.get_eq_getElem] at hsfv2
    simp [driveFrom, hr2, hsfv, hsfv2, List.range_succ, List.get_eq_getElem]

/-! ### Concrete chains used by the witnesses -/

def recW : Recipe :=
  { title := "Garlic Pasta"
    ingredients := [⟨"1 clove garlic", "garlic", "garlic", 1, "clove", "", "", false, 1⟩]
    instructions := [⟨1, "Cook the garlic.", none, none, none⟩]
    method_used := ExtractionMethod.audio
    source_url := some "u" }

def tiersW : List Tier :=
  [⟨"t1", fun _ => ⟨false, none, true, some "e1"⟩⟩,
   ⟨"t2", fun _ => ⟨true, some recW, false, none⟩⟩,
   ⟨"t3", fun _ => ⟨false, none, false, some "e3"⟩⟩]

def tiersX : List Tier :=
  [⟨"a", fun _ => ⟨false, none, true, some "ea"⟩⟩,
   ⟨"b", fun _ => ⟨false, none, true, some "eb"⟩⟩]

def tiersY : List Tier :=
  [⟨"m", fun _ => ⟨true, none, true, some "no recipe"⟩⟩,
   ⟨"a", fun _ => ⟨true, some recW, false, none⟩⟩]

theorem driver_first_success_witness :
    (extract_from_video tiersW "u").recipe = ((tiersW.get ⟨1, by decide⟩).extract "u").recipe ∧
    (extract_from_video tiersW "u").invoked = List.range 2 :=
  driver_first_success_returns_recipe "u" tiersW 1 (by decide) (by decide) (by decide) (by decide)

theorem driver_failure_terminates_witness :
    extract_from_video tiersX "u" =
      ⟨none, ((tiersX.get ⟨1, by decide⟩).extract "u").error, List.range 2⟩ :=
  driver_failure_terminates "u" tiersX 1 (by decide) (by decide) (by decide)
    (Or.inr (by decide))

theorem driver_success_without_recipe_witness :
    extract_from_video tiersY "u" =
      if ((tiersY.get ⟨0, by decide⟩).extract "u").should_fallback then
        { recipe :=
            (driveFrom "u" 1 (tiersY.drop 1)
              ((tiersY.get ⟨0, by decide⟩).extract "u").error).recipe,
          last_error :=
            (driveFrom "u" 1 (tiersY.drop 1)
              ((tiersY.get ⟨0, by decide⟩).extract "u").error).last_error,
          invoked :=
            List.range 1 ++
              (driveFrom "u" 1 (tiersY.drop 1)
                ((tiersY.get ⟨0, by decide⟩).extract "u").error).invoked }
      else ⟨none, ((tiersY.get ⟨0, by decide⟩).extract "u").error, List.range 1⟩ :=
  driver_success_without_recipe "u" tiersY 0 (by decide) (by decide) (by decide) (by decide)

/-! ## URL classifier (`is_video_url`, `extraction_pipeline.py` lines 27-102)

`urllib.parse.urlparse` is an external collaborator; its outcome is the
input: either a parsed `(netloc, path)` pair or a parse failure
(`Except.error`), which the `try/except` of `is_video_url` turns into
`False` (the Website route) instead of raising. -/

structure ParsedUrl where
  netloc : String
  path : String
deriving Repr, DecidableEq

def VIDEO_DOMAINS : List String :=
  ["youtube.com", "www.youtube.com", "youtu.be", "m.youtube.com",
   "tiktok.com", "www.tiktok.com", "vm.tiktok.com",
   "instagram.com", "www.instagram.com",
   "facebook.com", "www.facebook.com", "fb.watch",
   "twitter.com", "x.com",
   "vimeo.com", "www.vimeo.com",
   "twitch.tv", "www.twitch.tv", "clips.twitch.tv"]

def VIDEO_PATH_PATTERNS : List String :=
  ["/reel/", "/reels/", "/shorts/", "/video/", "/watch", "/v/", "/p/", "/status/"]

/-- `domain[4:]` when `domain.startswith("www.")`, else `domain`. -/
def stripWww (d : String) : String :=
  if pyStartsWith d "www." then String.mk (d.data.drop 4) else d

def is_video_url (pr : Except String ParsedUrl) : Bool :=
  match pr with
  | Except.error _ => false
  | Except.ok parsed =>
    let domain := lowerStr parsed.netloc
    let domain_clean := stripWww domain
    if domain ∈ VIDEO_DOMAINS ∨ domain_clean ∈ VIDEO_DOMAINS then true
    else if VIDEO_PATH_PATTERNS.any (fun pattern => pyContains (lowerStr parsed.path) pattern) then
      true
    else false

/-- Every `www.`-prefixed member of the known domain set also has its
stripped form in the set, so membership of the un-stripped domain never
decides more than membership of the normalized one. -/
theorem video_domains_strip_closed :
    ∀ d ∈ VIDEO_DOMAINS, stripWww d ∈ VIDEO_DOMAINS := by decide

/-- C6: the classifier is total over parse outcomes and returns the Video
route exactly when the URL parsed and either its normalized domain
(case-lowered, leading `www.` stripped) is in the known video-hosting
set, or its lowercased path contains one of the video path fragments;
in every other case, including URL-parse failure, it returns the
Website route (`false`) rather than raising. -/
theorem classify_characterization (pr : Except String ParsedUrl) :
    is_video_url pr = true ↔
      ∃ p, pr = Except.ok p ∧
        (stripWww (lowerStr p.netloc) ∈ VIDEO_DOMAINS ∨
         ∃ pat ∈ VIDEO_PATH_PATTERNS,
           ∃ l r, (lowerStr p.path).data = l ++ pat.data ++ r) := by
  cases pr with
  | error e => simp [is_video_url]
  | ok p =>
    simp only [is_video_url]
    constructor
    · intro h
      refine ⟨p, rfl, ?_⟩
      by_cases hdom : lowerStr p.netloc ∈ VIDEO_DOMAINS ∨
          stripWww (lowerStr p.netloc) ∈ VIDEO_DOMAINS
      · left
        rcases hdom with hdom | hdom
        · exact video_domains_strip_closed _ hdom
        · exact hdom
      · right
        rw [if_neg hdom] at h
        by_cases hpat :
            VIDEO_PATH_PATTERNS.any (fun pattern => pyContains (lowerStr p.path) pattern) = true
        · rcases List.any_eq_true.mp hpat with ⟨pat, hmem, hc⟩
          exact ⟨pat, hmem, (hasSub_iff pat.data (lowerStr p.path).data).mp hc⟩
        · rw [if_neg (by simpa using hpat)] at h
          exact absurd h (by simp)
    · rintro ⟨q, hq, hcase⟩
      have hpq : q = p := by injection hq.symm
      subst hpq
      rcases hcase with hdom | ⟨pat, hmem, hdecomp⟩
      · rw [if_pos (Or.inr hdom)]
      · by_cases hd : lowerStr q.netloc ∈ VIDEO_DOMAINS ∨
            stripWww (lowerStr q.netloc) ∈ VIDEO_DOMAINS
        · rw [if_pos hd]
        · rw [if_neg hd, if_pos]
          exact List.any_eq_true.mpr
            ⟨pat, hmem, (hasSub_iff pat.data (lowerStr q.path).data).mpr hdecomp⟩

/-! ## Concrete video tiers (`app/services/extractors/`)

Each extractor's `extract` is embedded over an environment recording what
its external collaborators answer: the yt-dlp fetch/download, the
transcription, the frame sampling, the OpenAI parse (`parsed`), and
whether anything raised (`fault`, caught by the tier's `try/except`).
Each `_parse_with_openai`/`_parse_transcript`/`_analyze_with_gpt4o`
builds a `Recipe` from parsed data with `method_used` fixed to the
tier's own tag (`buildParsedRecipe`); the success path then decorates
`recipe.source_url = url` (plus tier-specific fields) before returning
`ExtractionResult(success=True, recipe=recipe)`. -/

structure RecipeData where
  title : String
  description : String := ""
  cuisine : String := ""
  difficulty : String := ""
  servings : Option Nat := none
  prep_time_minutes : Option Nat := none
  cook_time_minutes : Option Nat := none
  total_time_minutes : Option Nat := none
  calories : Option Nat := none
  protein_grams : Option Rat := none
  carbs_grams : Option Rat := none
  fat_grams : Option Rat := none
  dietary_tags : List String := []
  keywords : List String := []
  equipment : List String := []
  ingredients : List Ingredient
  instructions : List Instruction
deriving Repr, DecidableEq

def buildParsedRecipe (method : ExtractionMethod) (d : RecipeData) : Recipe :=
  { title := d.title
    description := d.description
    cuisine := d.cuisine
    difficulty := d.difficulty
    servings := d.servings
    prep_time_minutes := d.prep_time_minutes
    cook_time_minutes := d.cook_time_minutes
    total_time_minutes := d.total_time_minutes
    calories := d.calories
    protein_grams := d.protein_grams
    carbs_grams := d.carbs_grams
    fat_grams := d.fat_grams
    dietary_tags := d.dietary_tags
    keywords := d.keywords
    equipment := d.equipment
    ingredients := d.ingredients
    instructions := d.instructions
    method_used := method }

structure VideoMetadataInfo where
  thumbnail : Option String := none
  creator : String := ""
  creator_url : Option String := none
deriving Repr, DecidableEq

structure MetadataEnv where
  fault : Option String := none
  metadata : Option VideoMetadataInfo := none
  parsed : Option RecipeData := none
deriving Repr, DecidableEq

def metadataExtract (env : MetadataEnv) (url : String) : ExtractionResult :=
  match env.fault with
  | some e => ⟨false, none, true, some e⟩
  | none =>
    match env.metadata with
    | none => ⟨false, none, true, some "Failed to fetch video metadata"⟩
    | some md =>
      match env.parsed with
      | none => ⟨false, none, true, some "No recipe found in metadata"⟩
      | some d =>
        let recipe := buildParsedRecipe ExtractionMethod.metadata d
        let recipe :=
          { recipe with
            source_url := some url
            thumbnail_url := md.thumbnail
            creator_name := md.creator
            creator_profile_url := md.creator_url }
        ⟨true, some recipe, false, none⟩

structure AudioEnv where
  fault : Option String := none
  audio_path : Option String := none
  transcript : Option String := none
  parsed : Option RecipeData := none
deriving Repr, DecidableEq

def audioExtract (env : AudioEnv) (url : String) : ExtractionResult :=
  match env.fault with
  | some e => ⟨false, none, true, some e⟩
  | none =>
    match env.audio_path with
    | none => ⟨false, none, true, some "Failed to download audio"⟩
    | some _ =>
      match env.transcript with
      | none => ⟨false, none, true, some "No significant speech detected"⟩
      | some t =>
        if (pyStrip t).length < 50 then
          ⟨false, none, true, some "No significant speech detected"⟩
        else
          match env.parsed with
          | none => ⟨false, none, true, some "No recipe found in transcript"⟩
          | some d =>
            let recipe := buildParsedRecipe ExtractionMethod.audio d
            let recipe := { recipe with source_url := some url }
            ⟨true, some recipe, false, none⟩

structure VisionEnv where
  fault : Option String := none
  video_path : Option String := none
  frames : List String := []
  parsed : Option RecipeData := none
deriving Repr, DecidableEq

def visionExtract (env : VisionEnv) (url : String) : ExtractionResult :=
  match env.fault with
  | some e => ⟨false, none, false, some e⟩
  | none =>
    match env.video_path with
    | none => ⟨false, none, false, some "Failed to download video"⟩
    | some _ =>
      if env.frames.isEmpty then
        ⟨false, none, false, some "Failed to extract video frames"⟩
      else
        match env.parsed with
        | none => ⟨false, none, false, some "No recipe found in video frames"⟩
        | some d =>
          let recipe := buildParsedRecipe ExtractionMethod.vision d
          let recipe := { recipe with source_url := some url }
          ⟨true, some recipe, false, none⟩

/-- `ExtractionPipeline._create_video_tiers`: metadata, then audio, then
vision, in this order. -/
def create_video_tiers (menv : MetadataEnv) (aenv : AudioEnv) (venv : VisionEnv) : List Tier :=
  [⟨"metadata", metadataExtract menv⟩,
   ⟨"audio", audioExtract aenv⟩,
   ⟨"vision", visionExtract venv⟩]

theorem metadata_failure_falls_back (env : MetadataEnv) (url : String)
    (h : (metadataExtract env url).success = false) :
    (metadataExtract env url).should_fallback = true := by
  rcases env with ⟨fault, md, parsed⟩
  cases fault <;> cases md <;> cases parsed <;> simp_all [metadataExtract]

theorem audio_success_decorated (env : AudioEnv) (url : String)
    (h : (audioExtract env url).success = true) :
    ∃ rec, (audioExtract env url).recipe = some rec ∧
      rec.method_used = ExtractionMethod.audio ∧ rec.source_url = some url := by
  rcases env with ⟨fault, ap, tr, parsed⟩
  cases fault <;> cases ap <;> cases tr <;> cases parsed <;>
    simp_all [audioExtract, buildParsedRecipe] <;> split_ifs <;> simp_all

/-- C7: in a 3-tier video chain where the metadata tier fails (tier 1,
which always permits fallback on failure) and the audio tier succeeds
(tier 2), the Driver returns exactly the audio tier's recipe, which is
decorated with `source_url` equal to the input URL and `method_used`
equal to the succeeding tier's tag (`audio`); only positions 0 and 1 are
invoked, so the vision tier (position 2) is never invoked. -/
theorem video_chain_second_tier_success (url : String) (menv : MetadataEnv)
    (aenv : AudioEnv) (venv : VisionEnv)
    (h1 : (metadataExtract menv url).success = false)
    (h2 : (audioExtract aenv url).success = true) :
    ∃ rec, (extract_from_video (create_video_tiers menv aenv venv) url).recipe = some rec ∧
      (audioExtract aenv url).recipe = some rec ∧
      rec.method_used = ExtractionMethod.audio ∧
      rec.source_url = some url ∧
      (extract_from_video (create_video_tiers menv aenv venv) url).invoked = [0, 1] := by
  obtain ⟨rec, hrec, hmeth, hsrc⟩ := audio_success_decorated aenv url h2
  have hfb := metadata_failure_falls_back menv url h1
  refine ⟨rec, ?_, hrec, hmeth, hsrc, ?_⟩ <;>
    simp [extract_from_video, create_video_tiers, driveFrom, h1, hfb, h2, hrec]

def recipeDataW : RecipeData :=
  { title := "Garlic Pasta"
    ingredients := [⟨"1 clove garlic", "garlic", "garlic", 1, "clove", "", "", false, 1⟩]
    instructions := [⟨1, "Cook the garlic.", none, none, none⟩] }

def menvW : MetadataEnv := {}

def aenvW : AudioEnv :=
  { audio_path := some "tmp.mp3"
    transcript := some "We start by mincing one clove of garlic and warming some olive oil in a pan."
    parsed := some recipeDataW }

def venvW : VisionEnv := {}

theorem video_chain_second_tier_success_witness :
    ∃ rec, (extract_from_video (create_video_tiers menvW aenvW venvW) "u").recipe = some rec ∧
      (audioExtract aenvW "u").recipe = some rec ∧
      rec.method_used = ExtractionMethod.audio ∧
      rec.source_url = some "u" ∧
      (extract_from_video (create_video_tiers menvW aenvW venvW) "u").invoked = [0, 1] :=
  video_chain_second_tier_success "u" menvW aenvW venvW (by decide) (by decide)

/-! ## Progress pipeline (`extraction_event_generator`, `routes.py` lines 96-174)

The generator runs the pipeline as a background task and forwards queued
`(message, percent)` progress updates as `progress` events (the polling
loop plus the drain loop deliver all queued updates, in FIFO order),
threading the best-effort `current_tier` inference; it then emits exactly
one terminal event from the task's outcome: `complete` with the recipe on
success, the fixed `error` message when the pipeline returned `None`, and
an `error` event carrying `str(e)` when the task raised (the fault is
caught, never propagated). `updates` is the queued progress sequence and
`outcome` the background task's result. -/

inductive SSEEvent where
  | progress (message : String) (percent : Rat) (tier : Option String)
  | complete (recipe : Recipe)
  | error (message : String)
deriving Repr, DecidableEq

def SSEEvent.isProgress : SSEEvent → Bool
  | SSEEvent.progress _ _ _ => true
  | _ => false

def SSEEvent.isTerminal : SSEEvent → Bool
  | SSEEvent.progress _ _ _ => false
  | _ => true

/-- The inline tier inference of `routes.py` lines 123-131. -/
def inferTier (message : String) (current_tier : Option String) : Option String :=
  if pyContains (lowerStr message) "metadata" then some "metadata"
  else if pyContains (lowerStr message) "audio" || pyContains (lowerStr message) "whisper" then
    some "audio"
  else if pyContains (lowerStr message) "vision" || pyContains (lowerStr message) "frame" then
    some "vision"
  else if pyContains (lowerStr message) "webpage" || pyContains (lowerStr message) "website" then
    some "website"
  else current_tier

def progressEvents : List (String × Rat) → Option String → List SSEEvent
  | [], _ => []
  | (m, p) :: rest, tier =>
    SSEEvent.progress m p (inferTier m tier) :: progressEvents rest (inferTier m tier)

inductive PipelineOutcome where
  | finished (recipe : Option Recipe)
  | raised (msg : String)
deriving Repr, DecidableEq

def terminalEvent : PipelineOutcome → SSEEvent
  | PipelineOutcome.finished (some r) => SSEEvent.complete r
  | PipelineOutcome.finished none => SSEEvent.error "Could not extract recipe from this URL"
  | PipelineOutcome.raised msg => SSEEvent.error msg

def extraction_event_generator (updates : List (String × Rat)) (outcome : PipelineOutcome) :
    List SSEEvent :=
  progressEvents updates none ++ [terminalEvent outcome]

theorem progressEvents_all_progress :
    ∀ (updates : List (String × Rat)) (tier : Option String),
    ∀ e ∈ progressEvents updates tier, SSEEvent.isProgress e = true := by
  intro updates
  induction updates with
  | nil => intro tier e he; simp [progressEvents] at he
  | cons u rest ih =>
    intro tier e he
    rcases u with ⟨m, p⟩
    rcases (by simpa [progressEvents] using he :
        e = SSEEvent.progress m p (inferTier m tier) ∨
          e ∈ progressEvents rest (inferTier m tier)) with h | h
    · subst h; rfl
    · exact ih (inferTier m tier) e h

theorem isProgress_not_isTerminal (e : SSEEvent) (h : SSEEvent.isProgress e = true) :
    SSEEvent.isTerminal e = false := by
  cases e <;> simp_all [SSEEvent.isProgress, SSEEvent.isTerminal]

/-- C3: every emitted stream is zero or more progress events followed by
exactly one terminal event which is always last; when the background
extraction finishes with a recipe the terminal event is `complete`
carrying that recipe, and when it raises, the fault is emitted as an
`error` event (the generator is a total function of the outcome: the
fault is caught, not propagated). -/
theorem stream_shape (updates : List (String × Rat)) (outcome : PipelineOutcome) :
    (∃ ps t, extraction_event_generator updates outcome = ps ++ [t] ∧
      (∀ e ∈ ps, SSEEvent.isProgress e = true) ∧ SSEEvent.isTerminal t = true) ∧
    (extraction_event_generator updates outcome).countP SSEEvent.isTerminal = 1 ∧
    (∀ r, outcome = PipelineOutcome.finished (some r) →
      (extraction_event_generator updates outcome).getLast? = some (SSEEvent.complete r)) ∧
    (∀ msg, outcome = PipelineOutcome.raised msg →
      (extraction_event_generator updates outcome).getLast? = some (SSEEvent.error msg)) := by
  have hterm : SSEEvent.isTerminal (terminalEvent outcome) = true := by
    rcases outcome with r | msg
    · rcases r with _ | r <;> rfl
    · rfl
  refine ⟨⟨progressEvents updates none, terminalEvent outcome, rfl,
      progressEvents_all_progress updates none, hterm⟩, ?_, ?_, ?_⟩
  · rw [extraction_event_generator, List.countP_append]
    have h0 : (progressEvents updates none).countP SSEEvent.isTerminal = 0 := by
      rw [List.countP_eq_zero]
      intro e he
      rw [isProgress_not_isTerminal e (progressEvents_all_progress updates none e he)]
      exact Bool.false_ne_true
    rw [h0, List.countP_singleton, hterm]
    simp
  · intro r hr
    subst hr
    rw [extraction_event_generator, List.getLast?_concat]
    rfl
  · intro msg hmsg
    subst hmsg
    rw [extraction_event_generator, List.getLast?_concat]
    rfl

/-- C8: the tier-tag inference is a pure total function of the message
and the prior tag, deciding by keyword containment in this priority
order: metadata; audio or whisper; vision or frame; webpage or website;
otherwise the prior tag is kept unchanged. -/
theorem infer_tier_rules (message : String) (prior : Option String) :
    (pyContains (lowerStr message) "metadata" = true →
      inferTier message prior = some "metadata") ∧
    (pyContains (lowerStr message) "metadata" = false →
      (pyContains (lowerStr message) "audio" = true ∨
        pyContains (lowerStr message) "whisper" = true) →
      inferTier message prior = some "audio") ∧
    (pyContains (lowerStr message) "metadata" = false →
      pyContains (lowerStr message) "audio" = false →
      pyContains (lowerStr message) "whisper" = false →
      (pyContains (lowerStr message) "vision" = true ∨
        pyContains (lowerStr message) "frame" = true) →
      inferTier message prior = some "vision") ∧
    (pyContains (lowerStr message) "metadata" = false →
      pyContains (lowerStr message) "audio" = false →
      pyContains (lowerStr message) "whisper" = false →
      pyContains (lowerStr message) "vision" = false →
      pyContains (lowerStr message) "frame" = false →
      (pyContains (lowerStr message) "webpage" = true ∨
        pyContains (lowerStr message) "website" = true) →
      inferTier message prior = some "website") ∧
    (pyContains (lowerStr message) "metadata" = false →
      pyContains (lowerStr message) "audio" = false →
      pyContains (lowerStr message) "whisper" = false →
      pyContains (lowerStr message) "vision" = false →
      pyContains (lowerStr message) "frame" = false →
      pyContains (lowerStr message) "webpage" = false →
      pyContains (lowerStr message) "website" = false →
      inferTier message prior = prior) := by
  refine ⟨?_, ?_, ?_, ?_, ?_⟩
  · intro h
    simp [inferTier, h]
  · intro h1 h2
    rcases h2 with h2 | h2 <;> simp [inferTier, h1, h2]
  · intro h1 h2 h3 h4
    rcases h4 with h4 | h4 <;> simp [inferTier, h1, h2, h3, h4]
  · intro h1 h2 h3 h4 h5 h6
    rcases h6 with h6 | h6 <;> simp [inferTier, h1, h2, h3, h4, h5, h6]
  · intro h1 h2 h3 h4 h5 h6 h7
    simp [inferTier, h1, h2, h3, h4, h5, h6, h7]

/-! ## Batch enrichment engine (`app/services/recipe_populator.py`)

External collaborators: TheMealDB's one-candidate-per-call endpoint is an
oracle from call index to `Option TheMealDBMeal` (`fetch_random_meal`,
`None` on fetch failure or empty payload); `hashlib.sha256(...)[:16]` is
an opaque deterministic function `sha16`; the website extractor invoked
by `enrich_recipe` is an oracle from URL to returned-result-or-raised.
Concurrency: `asyncio.gather(..., return_exceptions=True)` returns one
outcome per dispatched task in task order, a raised task yielding its
exception object; `populate_recipes` is embedded over that outcome list
(`taskOutcome` per meal). -/

structure TheMealDBMeal where
  id : String
  title : String
  source_url : String
  image : String
  category : String
  area : String
deriving Repr, DecidableEq

structure PIngredient where
  rawText : String
  name : String
  normalizedName : String
  quantity : Rat
  unit : String
  preparation : Option String
  category : Option String
  optional : Bool
  sortOrder : Nat
deriving Repr, DecidableEq

structure PInstruction where
  stepNumber : Nat
  text : String
  timeSeconds : Option Nat
  temperature : Option String
  tip : Option String
deriving Repr, DecidableEq

structure PopulatedRecipe where
  source_id : String
  source_url : String
  title : String
  description : Option String
  cuisine : Option String
  difficulty : Option String
  image_url : Option String
  servings : Option Nat
  prep_time_minutes : Option Nat
  cook_time_minutes : Option Nat
  total_time_minutes : Option Nat
  calories : Option Nat
  protein_grams : Option Rat
  carbs_grams : Option Rat
  fat_grams : Option Rat
  dietary_tags : List String
  keywords : List String
  equipment : List String
  creator_name : Option String
  creator_profile_url : Option String
  ingredients : List PIngredient
  instructions : List PInstruction
deriving Repr, DecidableEq

/-- Python `x or y` over an optional string: `None` and `""` are falsy. -/
def pyOrStr (x y : Option String) : Option String :=
  match x with
  | some s => if s = "" then y else some s
  | none => y

/-- Python `s or None`. -/
def strOrNone (s : String) : Option String := if s = "" then none else some s

/-- `_generate_source_id`: `hashlib.sha256(url.encode()).hexdigest()[:16]`,
with the hash an opaque deterministic collaborator `sha16`. -/
def generate_source_id (sha16 : String → String) (url : String) : String := sha16 url

/-- `_recipe_to_populated` (`recipe_populator.py` lines 94-141). -/
def recipe_to_populated (sha16 : String → String) (recipe : Recipe) (source_url : String)
    (image_url : Option String) (area : Option String) : PopulatedRecipe :=
  { source_id := generate_source_id sha16 source_url
    source_url := source_url
    title := recipe.title
    description := strOrNone recipe.description
    cuisine := pyOrStr (some recipe.cuisine) (pyOrStr area none)
    difficulty := strOrNone recipe.difficulty
    image_url := pyOrStr recipe.thumbnail_url image_url
    servings := recipe.servings
    prep_time_minutes := recipe.prep_time_minutes
    cook_time_minutes := recipe.cook_time_minutes
    total_time_minutes := recipe.total_time_minutes
    calories := recipe.calories
    protein_grams := recipe.protein_grams
    carbs_grams := recipe.carbs_grams
    fat_grams := recipe.fat_grams
    dietary_tags := recipe.dietary_tags
    keywords := recipe.keywords
    equipment := recipe.equipment
    creator_name := some (if recipe.creator_name = "" then "TheMealDB" else recipe.creator_name)
    creator_profile_url := recipe.creator_profile_url
    ingredients := recipe.ingredients.map (fun ing =>
      { rawText := ing.raw_text
        name := ing.name
        normalizedName := ing.normalized_name
        quantity := ing.quantity
        unit := ing.unit
        preparation := strOrNone ing.preparation
        category := strOrNone ing.category
        optional := ing.optional
        sortOrder := ing.sort_order })
    instructions := recipe.instructions.map (fun inst =>
      { stepNumber := inst.step_number
        text := inst.text
        timeSeconds := inst.time_seconds
        temperature := inst.temperature
        tip := inst.tip }) }

def MEAT_CATEGORIES : List String := ["beef", "chicken", "lamb", "pork", "goat", "seafood"]

def NON_VEGAN_CATEGORIES : List String :=
  ["beef", "chicken", "lamb", "pork", "goat", "seafood", "dessert"]

/-- `_matches_dietary_restrictions` (`recipe_populator.py` lines 144-164). -/
def matches_dietary_restrictions (category : String) (restrictions : Option (List String)) : Bool :=
  match restrictions with
  | none => true
  | some rs =>
    if rs.isEmpty then true
    else
      !(rs.any (fun restriction =>
        (lowerStr restriction == "vegetarian" &&
          MEAT_CATEGORIES.any (fun c => pyContains (lowerStr category) c)) ||
        (lowerStr restriction == "vegan" &&
          NON_VEGAN_CATEGORIES.any (fun c => pyContains (lowerStr category) c))))

/-- The `for _ in range(max_attempts)` loop of `fetch_themealdb_recipes`
(lines 230-250): `i` is the number of `fetch_random_meal` calls made so
far, `fuel` the remaining attempts. Returns the accumulated meals and the
total number of calls. -/
def fetchLoop (oracle : Nat → Option TheMealDBMeal) (count : Nat)
    (restrictions : Option (List String)) :
    Nat → Nat → List TheMealDBMeal → List String → List TheMealDBMeal × Nat
  | i, 0, recipes, _ => (recipes, i)
  | i, fuel + 1, recipes, seen =>
    if count ≤ recipes.length then (recipes, i)
    else
      match oracle i with
      | none => fetchLoop oracle count restrictions (i + 1) fuel recipes seen
      | some meal =>
        if meal.id ∈ seen then fetchLoop oracle count restrictions (i + 1) fuel recipes seen
        else if matches_dietary_restrictions meal.category restrictions then
          fetchLoop oracle count restrictions (i + 1) fuel (recipes ++ [meal]) (meal.id :: seen)
        else
          fetchLoop oracle count restrictions (i + 1) fuel recipes (meal.id :: seen)

def fetch_themealdb_recipes (oracle : Nat → Option TheMealDBMeal) (count : Nat)
    (restrictions : Option (List String)) : List TheMealDBMeal × Nat :=
  fetchLoop oracle count restrictions 0 (count * 5) [] []

/-- The oversampling phase of `populate_recipes` (lines 305-311):
`fetch_count = min(count * 2, 50)` candidates requested. -/
def populateOversample (oracle : Nat → Option TheMealDBMeal) (count : Nat)
    (dietary : Option (List String)) : List TheMealDBMeal × Nat :=
  fetch_themealdb_recipes oracle (min (count * 2) 50) dietary

/-- One gathered task outcome: an enriched recipe, a `None` from
`enrich_recipe`, or an exception object captured by
`gather(..., return_exceptions=True)`. -/
inductive EnrichOutcome where
  | ok (r : PopulatedRecipe)
  | failed
  | raised (msg : String)
deriving Repr, DecidableEq

def EnrichOutcome.isRaised : EnrichOutcome → Bool
  | EnrichOutcome.raised _ => true
  | _ => false

/-- The website extractor call inside `enrich_recipe`: returned a result
or raised (the surrounding `try/except` turns a raise into `None`). -/
inductive WebExtractOutcome where
  | result (r : ExtractionResult)
  | raised (msg : String)

/-- `enrich_recipe` (lines 255-285). -/
def enrich_recipe (sha16 : String → String) (extractOf : String → WebExtractOutcome)
    (meal : TheMealDBMeal) : Option PopulatedRecipe :=
  match extractOf meal.source_url with
  | WebExtractOutcome.raised _ => none
  | WebExtractOutcome.result r =>
    if r.success then
      match r.recipe with
      | some rec =>
        some (recipe_to_populated sha16 rec meal.source_url (some meal.image) (some meal.area))
      | none => none
    else none

/-- An `enrich_recipe`-backed task never leaves an exception for `gather`
(`except Exception` inside `enrich_recipe` returns `None`). -/
def enrichTask (sha16 : String → String) (extractOf : String → WebExtractOutcome)
    (meal : TheMealDBMeal) : EnrichOutcome :=
  match enrich_recipe sha16 extractOf meal with
  | some p => EnrichOutcome.ok p
  | none => EnrichOutcome.failed

/-- The ingredient-exclusion filter applied post-hoc in `populate_recipes`
(lines 334-339). -/
def excludedBy (exclude : Option (List String)) (r : PopulatedRecipe) : Bool :=
  match exclude with
  | none => false
  | some exs =>
    if exs.isEmpty then false
    else
      let ingredients_text :=
        String.intercalate " " (r.ingredients.map (fun ing => lowerStr ing.name))
      exs.any (fun ex => pyContains ingredients_text (lowerStr ex))

/-- The result-selection loop of `populate_recipes` (lines 331-346):
append each non-excluded success, stop once `count` are accumulated,
skip `None`s and log-and-skip exceptions. -/
def selectLoop (exclude : Option (List String)) (count : Nat) :
    List EnrichOutcome → List PopulatedRecipe → List PopulatedRecipe
  | [], acc => acc
  | r :: rest, acc =>
    match r with
    | EnrichOutcome.ok p =>
      if excludedBy exclude p then selectLoop exclude count rest acc
      else if count ≤ (acc ++ [p]).length then acc ++ [p]
      else selectLoop exclude count rest (acc ++ [p])
    | _ => selectLoop exclude count rest acc

def selectResults (results : List EnrichOutcome) (exclude : Option (List String))
    (count : Nat) : List PopulatedRecipe :=
  selectLoop exclude count results []

/-- `populate_recipes` (lines 287-349) over the fetch oracle and the
per-meal gathered task outcome. -/
def populate_recipes (oracle : Nat → Option TheMealDBMeal)
    (taskOutcome : TheMealDBMeal → EnrichOutcome) (count : Nat)
    (dietary exclude : Option (List String)) : List PopulatedRecipe :=
  let meals := (populateOversample oracle count dietary).1
  if meals.isEmpty then []
  else selectResults (meals.map taskOutcome) exclude count

/-- The successes among the gathered outcomes that pass the post-hoc
ingredient-exclusion filter, in task order. -/
def passingSuccesses (results : List EnrichOutcome) (exclude : Option (List String)) :
    List PopulatedRecipe :=
  results.filterMap (fun r =>
    match r with
    | EnrichOutcome.ok p => if excludedBy exclude p then none else some p
    | _ => none)

theorem selectLoop_closed (exclude : Option (List String)) (count : Nat) :
    ∀ (results : List EnrichOutcome) (acc : List PopulatedRecipe),
    acc.length < count →
    selectLoop exclude count results acc =
      acc ++ (passingSuccesses results exclude).take (count - acc.length) := by
  intro results
  induction results with
  | nil =>
    intro acc h
    simp [selectLoop, passingSuccesses]
  | cons r rest ih =>
    intro acc h
    cases r with
    | ok p =>
      simp only [selectLoop]
      by_cases hex : excludedBy exclude p = true
      · rw [if_pos hex, ih acc h]
        simp [passingSuccesses, List.filterMap_cons, hex]
      · have hex2 : excludedBy exclude p = false := by
          cases hx : excludedBy exclude p
          · rfl
          · exact absurd hx hex
        rw [if_neg hex]
        by_cases hfull : count ≤ (acc ++ [p]).length
        · rw [if_pos hfull]
          have hcnt : count - acc.length = 1 := by
            simp only [List.length_append, List.length_singleton] at hfull
            omega
          simp [passingSuccesses, List.filterMap_cons, hex2, hcnt]
        · rw [if_neg hfull]
          have hlt : (acc ++ [p]).length < count := by
            simp only [List.length_append, List.length_singleton] at hfull ⊢
            omega
          rw [ih (acc ++ [p]) hlt]
          have hsub : count - acc.length = (count - (acc ++ [p]).length) + 1 := by
            simp only [List.length_append, List.length_singleton]
            omega
          rw [hsub]
          simp [passingSuccesses, List.filterMap_cons, hex2, List.take_succ_cons]
    | failed =>
      simp only [selectLoop]
      rw [ih acc h]
      simp [passingSuccesses, List.filterMap_cons]
    | raised msg =>
      simp only [selectLoop]
      rw [ih acc h]
      simp [passingSuccesses, List.filterMap_cons]

theorem selectResults_closed (results : List EnrichOutcome) (exclude : Option (List String))
    (count : Nat) (h : 1 ≤ count) :
    selectResults results exclude count = (passingSuccesses results exclude).take count := by
  have hc := selectLoop_closed exclude count results [] (by simpa using h)
  simpa [selectResults] using hc

theorem mem_passingSuccesses (results : List EnrichOutcome) (exclude : Option (List String))
    (p : PopulatedRecipe) :
    p ∈ passingSuccesses results exclude ↔
      EnrichOutcome.ok p ∈ results ∧ excludedBy exclude p = false := by
  induction results with
  | nil => simp [passingSuccesses]
  | cons r rest ih =>
    cases r with
    | ok q =>
      by_cases hex : excludedBy exclude q = true
      · simp only [passingSuccesses, List.filterMap_cons, hex, if_true] at ih ⊢
        rw [ih]
        constructor
        · rintro ⟨hmem, hexp⟩
          exact ⟨List.mem_cons_of_mem _ hmem, hexp⟩
        · rintro ⟨hmem, hexp⟩
          rcases List.mem_cons.mp hmem with heq | hmem2
          · have : p = q := by injection heq
            subst this
            rw [hex] at hexp
            exact absurd hexp (by simp)
          · exact ⟨hmem2, hexp⟩
      · have hex2 : excludedBy exclude q = false := by
          cases hx : excludedBy exclude q
          · rfl
          · exact absurd hx hex
        simp only [passingSuccesses, List.filterMap_cons, hex2, Bool.false_eq_true, if_false] at ih ⊢
        rw [List.mem_cons, ih]
        constructor
        · rintro (heq | ⟨hmem, hexp⟩)
          · subst heq
            exact ⟨List.mem_cons_self _ _, hex2⟩
          · exact ⟨List.mem_cons_of_mem _ hmem, hexp⟩
        · rintro ⟨hmem, hexp⟩
          rcases List.mem_cons.mp hmem with heq | hmem2
          · left
            injection heq
          · exact Or.inr ⟨hmem2, hexp⟩
    | failed =>
      simp only [passingSuccesses, List.filterMap_cons] at ih ⊢
      rw [ih, List.mem_cons]
      constructor
      · rintro ⟨hmem, hexp⟩
        exact ⟨Or.inr hmem, hexp⟩
      · rintro ⟨heq | hmem, hexp⟩
        · exact absurd heq (by simp)
        · exact ⟨hmem, hexp⟩
    | raised msg =>
      simp only [passingSuccesses, List.filterMap_cons] at ih ⊢
      rw [ih, List.mem_cons]
      constructor
      · rintro ⟨hmem, hexp⟩
        exact ⟨Or.inr hmem, hexp⟩
      · rintro ⟨heq | hmem, hexp⟩
        · exact absurd heq (by simp)
        · exact ⟨hmem, hexp⟩

theorem enrichTask_ok_source_id (sha16 : String → String)
    (extractOf : String → WebExtractOutcome) (meal : TheMealDBMeal) (p : PopulatedRecipe)
    (h : enrichTask sha16 extractOf meal = EnrichOutcome.ok p) :
    p.source_id = sha16 meal.source_url := by
  unfold enrichTask at h
  cases he : enrich_recipe sha16 extractOf meal with
  | none => rw [he] at h; exact absurd h (by simp)
  | some q =>
    rw [he] at h
    dsimp only at h
    have hq : q = p := by injection h
    subst hq
    unfold enrich_recipe at he
    cases hw : extractOf meal.source_url with
    | raised msg => rw [hw] at he; exact absurd he (by simp)
    | result r =>
      rw [hw] at he
      dsimp only at he
      cases hsucc : r.success with
      | false => rw [hsucc] at he; exact absurd he (by simp)
      | true =>
        rw [hsucc, if_pos rfl] at he
        cases hrec : r.recipe with
        | none => rw [hrec] at he; exact absurd he (by simp)
        | some rec =>
          rw [hrec] at he
          dsimp only at he
          have hqe : recipe_to_populated sha16 rec meal.source_url (some meal.image)
              (some meal.area) = q := by
            simpa using he
          rw [← hqe]
          rfl

theorem passing_sources_sublist (sha16 : String → String)
    (extractOf : String → WebExtractOutcome) (exclude : Option (List String)) :
    ∀ meals : List TheMealDBMeal,
    List.Sublist
      ((passingSuccesses (meals.map (enrichTask sha16 extractOf)) exclude).map
        (fun p => p.source_id))
      (meals.map (fun m => sha16 m.source_url)) := by
  intro meals
  induction meals with
  | nil => simp [passingSuccesses]
  | cons m rest ih =>
    simp only [List.map_cons]
    cases ho : enrichTask sha16 extractOf m with
    | ok p =>
      by_cases hex : excludedBy exclude p = true
      · simp only [passingSuccesses, List.filterMap_cons, ho, hex, if_true]
        exact ih.cons _
      · have hex2 : excludedBy exclude p = false := by
          cases hx : excludedBy exclude p
          · rfl
          · exact absurd hx hex
        simp only [passingSuccesses, List.filterMap_cons, ho, hex2, Bool.false_eq_true, if_false,
          List.map_cons]
        rw [enrichTask_ok_source_id sha16 extractOf m p ho]
        exact ih.cons₂ _
    | failed =>
      simp only [passingSuccesses, List.filterMap_cons, ho]
      exact ih.cons _
    | raised msg =>
      simp only [passingSuccesses, List.filterMap_cons, ho]
      exact ih.cons _

theorem fetchLoop_spec (oracle : Nat → Option TheMealDBMeal) (count : Nat)
    (restrictions : Option (List String)) :
    ∀ (fuel i : Nat) (recipes : List TheMealDBMeal) (seen : List String),
    recipes.length ≤ count →
    (fetchLoop oracle count restrictions i fuel recipes seen).1.length ≤ count ∧
    (fetchLoop oracle count restrictions i fuel recipes seen).2 ≤ i + fuel ∧
    ((fetchLoop oracle count restrictions i fuel recipes seen).1.length = count ∨
      (fetchLoop oracle count restrictions i fuel recipes seen).2 = i + fuel) := by
  intro fuel
  induction fuel with
  | zero =>
    intro i recipes seen h
    simp only [fetchLoop]
    exact ⟨h, Nat.le_add_right i 0, Or.inr rfl⟩
  | succ fuel ih =>
    intro i recipes seen h
    simp only [fetchLoop]
    by_cases hfull : count ≤ recipes.length
    · rw [if_pos hfull]
      exact ⟨h, by omega, Or.inl (le_antisymm h hfull)⟩
    · rw [if_neg hfull]
      have harith : i + 1 + fuel = i + (fuel + 1) := by omega
      cases horacle : oracle i with
      | none =>
        dsimp only
        rcases ih (i + 1) recipes seen h with ⟨a, b, c⟩
        refine ⟨a, harith ▸ b, ?_⟩
        rcases c with c | c
        · exact Or.inl c
        · exact Or.inr (harith ▸ c)
      | some meal =>
        dsimp only
        by_cases hseen : meal.id ∈ seen
        · rw [if_pos hseen]
          rcases ih (i + 1) recipes seen h with ⟨a, b, c⟩
          refine ⟨a, harith ▸ b, ?_⟩
          rcases c with c | c
          · exact Or.inl c
          · exact Or.inr (harith ▸ c)
        · rw [if_neg hseen]
          cases hdiet : matches_dietary_restrictions meal.category restrictions with
          | true =>
            rw [if_pos rfl]
            have hlen : (recipes ++ [meal]).length ≤ count := by
              simp only [List.length_append, List.length_singleton]
              omega
            rcases ih (i + 1) (recipes ++ [meal]) (meal.id :: seen) hlen with ⟨a, b, c⟩
            refine ⟨a, harith ▸ b, ?_⟩
            rcases c with c | c
            · exact Or.inl c
            · exact Or.inr (harith ▸ c)
          | false =>
            rw [if_neg (by simp)]
            rcases ih (i + 1) recipes (meal.id :: seen) h with ⟨a, b, c⟩
            refine ⟨a, harith ▸ b, ?_⟩
            rcases c with c | c
            · exact Or.inl c
            · exact Or.inr (harith ▸ c)

/-- C4 (amended): for a batch with target `count ≥ 1`, the engine returns
exactly `min(count, number of enrichment successes that pass the
post-hoc filter)` recipes, never more than `count`; and the returned
`source_id`s are pairwise distinct whenever the fetched candidates have
pairwise distinct `sha16(source_url)` values. The deduplication of the
fetch phase keys on the candidate id, while `source_id` hashes the
source URL, so two distinct candidate ids sharing one URL defeat
`source_id` uniqueness (see the counterexample). -/
theorem batch_engine_output (sha16 : String → String)
    (oracle : Nat → Option TheMealDBMeal) (extractOf : String → WebExtractOutcome)
    (count : Nat) (dietary exclude : Option (List String))
    (hcount : 1 ≤ count)
    (hinj : ((populateOversample oracle count dietary).1.map
        (fun m => sha16 m.source_url)).Nodup) :
    (populate_recipes oracle (enrichTask sha16 extractOf) count dietary exclude).length =
      min count
        (passingSuccesses
          ((populateOversample oracle count dietary).1.map (enrichTask sha16 extractOf))
          exclude).length ∧
    (populate_recipes oracle (enrichTask sha16 extractOf) count dietary exclude).length ≤
      count ∧
    ((populate_recipes oracle (enrichTask sha16 extractOf) count dietary exclude).map
        (fun p => p.source_id)).Nodup := by
  have hpop : populate_recipes oracle (enrichTask sha16 extractOf) count dietary exclude =
      if (populateOversample oracle count dietary).1.isEmpty then []
      else
        selectResults
          ((populateOversample oracle count dietary).1.map (enrichTask sha16 extractOf))
          exclude count := rfl
  by_cases hempty : (populateOversample oracle count dietary).1.isEmpty = true
  · have hnil : (populateOversample oracle count dietary).1 = [] :=
      List.isEmpty_iff.mp hempty
    rw [hpop, if_pos hempty, hnil]
    simp [passingSuccesses]
  · rw [hpop, if_neg hempty,
      selectResults_closed _ _ _ hcount]
    refine ⟨List.length_take _ _, ?_, ?_⟩
    · rw [List.length_take]
      exact Nat.min_le_left _ _
    · have hmap :
          ((passingSuccesses
              ((populateOversample oracle count dietary).1.map (enrichTask sha16 extractOf))
              exclude).take count).map (fun p => p.source_id) =
            ((passingSuccesses
              ((populateOversample oracle count dietary).1.map (enrichTask sha16 extractOf))
              exclude).map (fun p => p.source_id)).take count :=
        List.map_take _ _ _
      rw [hmap]
      exact hinj.sublist
        ((List.take_sublist _ _).trans (passing_sources_sublist sha16 extractOf exclude _))

/-- C5: even when some gathered enrichment task raised, the raised tasks
contribute nothing and do not affect their siblings: the batch output is
exactly the first `count` filter-passing successes of the gathered
outcomes, and every output recipe comes from a task that returned an
enrichment success passing the filter. -/
theorem batch_isolates_raised (oracle : Nat → Option TheMealDBMeal)
    (taskOutcome : TheMealDBMeal → EnrichOutcome) (count : Nat)
    (dietary exclude : Option (List String))
    (hcount : 1 ≤ count)
    (hraised : ∃ m ∈ (populateOversample oracle count dietary).1,
      (taskOutcome m).isRaised = true) :
    populate_recipes oracle taskOutcome count dietary exclude =
      (passingSuccesses ((populateOversample oracle count dietary).1.map taskOutcome)
        exclude).take count ∧
    ∀ p ∈ populate_recipes oracle taskOutcome count dietary exclude,
      ∃ m ∈ (populateOversample oracle count dietary).1,
        taskOutcome m = EnrichOutcome.ok p ∧ excludedBy exclude p = false := by
  obtain ⟨m0, hm0, _⟩ := hraised
  have hne : (populateOversample oracle count dietary).1 ≠ [] := by
    intro hnil
    rw [hnil] at hm0
    exact absurd hm0 (List.not_mem_nil m0)
  have hempty : (populateOversample oracle count dietary).1.isEmpty = false := by
    cases hx : (populateOversample oracle count dietary).1.isEmpty
    · rfl
    · exact absurd (List.isEmpty_iff.mp hx) hne
  have hpop : populate_recipes oracle taskOutcome count dietary exclude =
      selectResults ((populateOversample oracle count dietary).1.map taskOutcome)
        exclude count := by
    show (if (populateOversample oracle count dietary).1.isEmpty then []
      else selectResults ((populateOversample oracle count dietary).1.map taskOutcome)
        exclude count) = _
    rw [hempty]
    simp
  rw [hpop, selectResults_closed _ _ _ hcount]
  refine ⟨rfl, ?_⟩
  intro p hp
  have hp2 : p ∈ passingSuccesses
      ((populateOversample oracle count dietary).1.map taskOutcome) exclude :=
    List.take_subset _ _ hp
  rcases (mem_passingSuccesses _ _ _).mp hp2 with ⟨hmem, hexF⟩
  rcases List.mem_map.mp hmem with ⟨m, hm, hm2⟩
  exact ⟨m, hm, hm2, hexF⟩

/-- C9 (amended): the oversampling phase requests at most
`min(count * 2, 50)` candidates; the `fetch_random_meal` call budget is
`min(count * 2, 50) * 5` (the loop bound `count * 5` is applied to the
already-doubled `fetch_count`, not to the batch target), and the loop
stops exactly when the oversample target is reached or that budget is
exhausted, whichever comes first. -/
theorem oversample_budget (oracle : Nat → Option TheMealDBMeal) (count : Nat)
    (dietary : Option (List String)) :
    (populateOversample oracle count dietary).1.length ≤ min (count * 2) 50 ∧
    (populateOversample oracle count dietary).2 ≤ min (count * 2) 50 * 5 ∧
    ((populateOversample oracle count dietary).1.length = min (count * 2) 50 ∨
      (populateOversample oracle count dietary).2 = min (count * 2) 50 * 5) := by
  have h := fetchLoop_spec oracle (min (count * 2) 50) dietary (min (count * 2) 50 * 5) 0 [] []
    (by simp)
  simpa [populateOversample, fetch_themealdb_recipes] using h

/-- C9 counterexample: for a batch target of 1 with a candidate source
that always fails, the oversampling phase makes 10 fetch calls, which
exceeds the claimed attempt budget of `count * 5 = 5` calls (the code's
budget is `min(count * 2, 50) * 5`). -/
theorem oversample_budget_exceeds_claim :
    (populateOversample (fun _ => none) 1 none).2 = 10 ∧
    ¬((populateOversample (fun _ => none) 1 none).2 ≤ 1 * 5) := by decide

/-! ### Concrete batch runs: witnesses and the C4 counterexample -/

def sha16W : String → String := fun s => s

def mealA : TheMealDBMeal := ⟨"1", "Meal A", "u", "", "Beef", "British"⟩

def mealB : TheMealDBMeal := ⟨"2", "Meal B", "u", "", "Beef", "British"⟩

def mealB2 : TheMealDBMeal := ⟨"2", "Meal B", "u2", "", "Beef", "British"⟩

def oracleW1 : Nat → Option TheMealDBMeal := fun n => if n = 0 then some mealA else none

def oracleW2 : Nat → Option TheMealDBMeal :=
  fun n => if n = 0 then some mealA else if n = 1 then some mealB else none

def oracleW3 : Nat → Option TheMealDBMeal :=
  fun n => if n = 0 then some mealA else if n = 1 then some mealB2 else none

def extractOfW : String → WebExtractOutcome :=
  fun _ => WebExtractOutcome.result ⟨true, some recW, false, none⟩

def pBW : PopulatedRecipe :=
  ⟨"idB", "u2", "Meal B", none, none, none, none, none, none, none, none, none, none,
    none, none, [], [], [], some "TheMealDB", none, [], []⟩

def taskOutcomeW : TheMealDBMeal → EnrichOutcome :=
  fun m => if m.id = "1" then EnrichOutcome.raised "boom" else EnrichOutcome.ok pBW

theorem batch_engine_output_witness :
    (populate_recipes oracleW1 (enrichTask sha16W extractOfW) 1 none none).length =
      min 1
        (passingSuccesses
          ((populateOversample oracleW1 1 none).1.map (enrichTask sha16W extractOfW))
          none).length ∧
    (populate_recipes oracleW1 (enrichTask sha16W extractOfW) 1 none none).length ≤ 1 ∧
    ((populate_recipes oracleW1 (enrichTask sha16W extractOfW) 1 none none).map
        (fun p => p.source_id)).Nodup :=
  batch_engine_output sha16W oracleW1 extractOfW 1 none none (by decide) (by decide)

/-- C4 counterexample: two upstream candidates with distinct ids (so the
id-keyed deduplication keeps both) but one shared source URL; both
enrichments succeed, and the batch output contains two recipes with the
same `source_id` (with the hash instantiated as the identity, standing
for any deterministic hash: equal URLs give equal digests). -/
theorem batch_engine_duplicate_source_id :
    mealA.id ≠ mealB.id ∧
    (populate_recipes oracleW2 (enrichTask sha16W extractOfW) 2 none none).map
        (fun p => p.source_id) = ["u", "u"] ∧
    ¬((populate_recipes oracleW2 (enrichTask sha16W extractOfW) 2 none none).map
        (fun p => p.source_id)).Nodup := by decide

theorem batch_isolates_raised_witness :
    populate_recipes oracleW3 taskOutcomeW 1 none none =
      (passingSuccesses ((populateOversample oracleW3 1 none).1.map taskOutcomeW)
        none).take 1 ∧
    ∀ p ∈ populate_recipes oracleW3 taskOutcomeW 1 none none,
      ∃ m ∈ (populateOversample oracleW3 1 none).1,
        taskOutcomeW m = EnrichOutcome.ok p ∧ excludedBy none p = false :=
  batch_isolates_raised oracleW3 taskOutcomeW 1 none none (by decide) (by decide)
